import Mathlib

/-!
Verification development for the phone-number batch-verification service.

The first part embeds the NumberValidator component (file
src/utils/userStorage.js, class NumberValidator): phone numbers are modelled
as lists of characters, and each JS method becomes a Lean function with the
same name and branch structure.  The second part embeds the cache, the
rate-limit gate, the session-initialization step and the batch loop of the
WhatsAppService class (src/unnamed/part_000).
-/

namespace NumberValidator

/-- The static prefix-to-carrier table `pakistaniNetworks` (userStorage.js
lines 341-395), keyed by the 3-digit network code. -/
def pakistaniNetworks : List (List Char × String) :=
  [ ("300".data, "Jazz"), ("301".data, "Jazz"), ("302".data, "Jazz"),
    ("303".data, "Jazz"), ("304".data, "Jazz"), ("305".data, "Jazz"),
    ("306".data, "Jazz"), ("307".data, "Jazz"), ("308".data, "Jazz"),
    ("309".data, "Jazz"),
    ("340".data, "Telenor"), ("341".data, "Telenor"), ("342".data, "Telenor"),
    ("343".data, "Telenor"), ("344".data, "Telenor"), ("345".data, "Telenor"),
    ("346".data, "Telenor"), ("347".data, "Telenor"), ("348".data, "Telenor"),
    ("349".data, "Telenor"),
    ("310".data, "Zong"), ("311".data, "Zong"), ("312".data, "Zong"),
    ("313".data, "Zong"), ("314".data, "Zong"), ("315".data, "Zong"),
    ("316".data, "Zong"), ("317".data, "Zong"), ("318".data, "Zong"),
    ("319".data, "Zong"),
    ("320".data, "Ufone"), ("321".data, "Ufone"), ("322".data, "Ufone"),
    ("323".data, "Ufone"), ("324".data, "Ufone"), ("325".data, "Ufone"),
    ("326".data, "Ufone"), ("327".data, "Ufone"), ("328".data, "Ufone"),
    ("329".data, "Ufone"),
    ("355".data, "SCOM"),
    ("354".data, "NTC") ]

/-- Lookup in the carrier table (JS property access on the object literal). -/
def lookupNetwork (code : List Char) : Option String :=
  List.lookup code pakistaniNetworks

/-- The method isValidNetworkCode (lines 618-620). -/
def isValidNetworkCode (networkCode : List Char) : Bool :=
  (lookupNetwork networkCode).isSome

/-- Result record returned by validateNumber / validateInternationalNumber. -/
structure ValidationResult where
  isValid : Bool
  originalNumber : List Char
  formattedNumber : Option (List Char)
  err : Option String
  network : Option String
deriving Repr, DecidableEq

/-- Result record returned by validatePakistaniNumber. -/
structure PakValidation where
  isValid : Bool
  err : Option String
  network : Option String
deriving Repr, DecidableEq

/-- JS String.prototype.trim on a character list. -/
def trimChars (l : List Char) : List Char :=
  ((l.dropWhile Char.isWhitespace).reverse.dropWhile Char.isWhitespace).reverse

/-- The startsWith-plus test and substring(1) step of cleanNumber
(lines 539-541). -/
def dropLeadingPlus (l : List Char) : List Char :=
  match l with
  | '+' :: rest => rest
  | _ => l

/-- The method cleanNumber (lines 530-547): trim, strip one leading plus
sign, then remove every non-digit character. -/
def cleanNumber (number : List Char) : List Char :=
  (dropLeadingPlus (trimChars number)).filter Char.isDigit

def startsWithPlus (l : List Char) : Bool :=
  match l with
  | '+' :: _ => true
  | _ => false

def startsWith00 (l : List Char) : Bool :=
  match l with
  | '0' :: '0' :: _ => true
  | _ => false

def startsWith0 (l : List Char) : Bool :=
  match l with
  | '0' :: _ => true
  | _ => false

def startsWith03 (l : List Char) : Bool :=
  match l with
  | '0' :: '3' :: _ => true
  | _ => false

def startsWith3 (l : List Char) : Bool :=
  match l with
  | '3' :: _ => true
  | _ => false

def startsWith92 (l : List Char) : Bool :=
  match l with
  | '9' :: '2' :: _ => true
  | _ => false

/-- The regex test on line 506: formatted number matches a plus sign
followed by 7 to 14 digits. -/
def intlRegexTest (f : List Char) : Bool :=
  match f with
  | '+' :: ds => ds.all Char.isDigit && decide (7 ≤ ds.length) && decide (ds.length ≤ 14)
  | _ => false

/-- The formatting block of validateInternationalNumber (lines 477-503). -/
def intlFormat (cleaned : List Char) : List Char :=
  if startsWithPlus cleaned then cleaned
  else if startsWith00 cleaned then '+' :: cleaned.drop 2
  else if decide (10 ≤ cleaned.length) && !startsWith0 cleaned then '+' :: cleaned
  else if startsWith0 cleaned && decide (10 ≤ cleaned.length) then
    (if cleaned.length = 11 && startsWith03 cleaned then
      '+' :: '9' :: '2' :: cleaned.drop 1
    else '+' :: cleaned)
  else '+' :: cleaned

/-- The method validateInternationalNumber (lines 464-523). -/
def validateInternationalNumber (cleaned : List Char) : ValidationResult :=
  if cleaned.length < 7 || 15 < cleaned.length then
    ⟨false, cleaned, none, some "Invalid international number length", some "International"⟩
  else
    let formattedNumber := intlFormat cleaned
    if intlRegexTest formattedNumber then
      ⟨true, cleaned, some formattedNumber, none, some "International"⟩
    else
      ⟨false, cleaned, none, some "Invalid international number format", some "International"⟩

/-- Alternative 1 of the regex on line 587: digits 9 and 2 followed by the
captured group, a 3 followed by 8 digits. -/
def pakAlt92 (l : List Char) : Option (List Char) :=
  match l with
  | '9' :: '2' :: '3' :: rest =>
    if decide (8 ≤ rest.length) && (rest.take 8).all Char.isDigit then
      some ('3' :: rest.take 8)
    else none
  | _ => none

/-- Alternative 2 of the regex on line 587 with the optional 0 consumed. -/
def pakAlt0 (l : List Char) : Option (List Char) :=
  match l with
  | '0' :: '3' :: rest =>
    if decide (8 ≤ rest.length) && (rest.take 8).all Char.isDigit then
      some ('3' :: rest.take 8)
    else none
  | _ => none

/-- Alternative 2 of the regex on line 587 without the optional 0. -/
def pakAlt3 (l : List Char) : Option (List Char) :=
  match l with
  | '3' :: rest =>
    if decide (8 ≤ rest.length) && (rest.take 8).all Char.isDigit then
      some ('3' :: rest.take 8)
    else none
  | _ => none

/-- Match attempt at one position: the regex engine tries alternative 1
first, then alternative 2 with its optional 0 taken greedily. -/
def pakMatchAt (l : List Char) : Option (List Char) :=
  pakAlt92 l <|> pakAlt0 l <|> pakAlt3 l

/-- Leftmost match of the regex on line 587 (String.prototype.match scans
positions left to right), returning the captured mobile-digit group. -/
def findPakMatch : List Char → Option (List Char)
  | [] => none
  | c :: rest => pakMatchAt (c :: rest) <|> findPakMatch rest

/-- Case 6 of formatNumber (lines 594-608), reached when no earlier case
returned. -/
def formatCase6 (cleaned : List Char) : Option (List Char) :=
  if decide (7 ≤ cleaned.length) && decide (cleaned.length ≤ 15) then
    if startsWith00 cleaned then some ('+' :: cleaned.drop 2)
    else if decide (10 ≤ cleaned.length) && !startsWith0 cleaned then some ('+' :: cleaned)
    else some ('+' :: cleaned)
  else none

/-- The method formatNumber (lines 554-611). -/
def formatNumber (cleaned : List Char) : Option (List Char) :=
  if cleaned.isEmpty || cleaned.length < 7 then none
  else if startsWithPlus cleaned then some cleaned
  else if startsWith92 cleaned && cleaned.length = 12 then some ('+' :: cleaned)
  else if startsWith0 cleaned && cleaned.length = 11 then
    some ('+' :: '9' :: '2' :: cleaned.drop 1)
  else if startsWith3 cleaned && cleaned.length = 10 then
    some ('+' :: '9' :: '2' :: cleaned)
  else if cleaned.length = 10 && isValidNetworkCode (cleaned.take 3) then
    some ('+' :: '9' :: '2' :: cleaned)
  else if decide (12 < cleaned.length) then
    match findPakMatch cleaned with
    | some mobileDigits => some ('+' :: '9' :: '2' :: mobileDigits)
    | none => formatCase6 cleaned
  else formatCase6 cleaned

def startsWithPlus92 (l : List Char) : Bool :=
  match l with
  | '+' :: '9' :: '2' :: _ => true
  | _ => false

/-- The method validatePakistaniNumber (lines 627-683). -/
def validatePakistaniNumber (formattedNumber : List Char) : PakValidation :=
  if !startsWithPlus92 formattedNumber then
    ⟨false, some "Number must start with +92", none⟩
  else
    let remainingDigits := formattedNumber.drop 3
    if remainingDigits.length ≠ 10 then
      ⟨false, some ("Invalid length. Expected 10 digits after +92, got " ++
        toString remainingDigits.length), none⟩
    else if !remainingDigits.all Char.isDigit then
      ⟨false, some "Number must contain only digits after +92", none⟩
    else if !startsWith3 remainingDigits then
      ⟨false, some "Pakistani mobile numbers must start with 3 after country code", none⟩
    else
      match lookupNetwork (remainingDigits.take 3) with
      | none => ⟨false, some "Invalid network code", none⟩
      | some net => ⟨true, none, some net⟩

/-- The method validateNumber (lines 403-457): clean, try the international
rule first, then the Pakistani formatting fallback. -/
def validateNumber (number : List Char) : ValidationResult :=
  let cleaned := cleanNumber number
  if cleaned.isEmpty then
    ⟨false, number, none, some "Empty or invalid number", none⟩
  else
    let internationalValidation := validateInternationalNumber cleaned
    if internationalValidation.isValid then internationalValidation
    else
      match formatNumber cleaned with
      | none => ⟨false, number, none, some "Invalid number format", none⟩
      | some formatted =>
        let validation := validatePakistaniNumber formatted
        ⟨validation.isValid, number,
          if validation.isValid then some formatted else none,
          validation.err, validation.network⟩

/-- The method formatForWhatsApp (lines 724-729): strip the leading plus. -/
def formatForWhatsApp (formattedNumber : List Char) : List Char :=
  match formattedNumber with
  | '+' :: rest => rest
  | l => l

end NumberValidator

/-!
Embedding of the WhatsAppService class (src/unnamed/part_000, lines
650-1366).  Phone numbers and filesystem paths are lists of characters,
timestamps are naturals (milliseconds), the JS Map objects are
insertion-ordered association lists, and the Protocol Client query is an
oracle returning either the registration flag or an error message.
-/

namespace WhatsAppService

open NumberValidator

/-- Generic JS Map.prototype.get on an association list. -/
def assocGet {α β : Type} [DecidableEq α] : List (α × β) → α → Option β
  | [], _ => none
  | p :: t, k => if p.1 = k then some p.2 else assocGet t k

/-- Generic JS Map.prototype.set on an insertion-ordered association list:
an existing key keeps its position, a new key is appended. -/
def assocSet {α β : Type} [DecidableEq α] (m : List (α × β)) (k : α) (v : β) :
    List (α × β) :=
  if (assocGet m k).isSome then
    m.map (fun p => if p.1 = k then (k, v) else p)
  else m ++ [(k, v)]

/-- The status field of a verification result. -/
inductive CheckStatus
  | valid
  | invalid
  | error
deriving Repr, DecidableEq

/-- The per-number result object assembled by checkNumber. -/
structure CheckResult where
  originalNumber : List Char
  formattedNumber : Option (List Char)
  status : CheckStatus
  hasWhatsApp : Option Bool
  errMsg : Option String
  network : Option String
  fromCache : Bool
deriving Repr, DecidableEq

/-- A numberCache entry (setCachedResult stores the result plus a
timestamp, lines 1324-1327). -/
structure CacheEntry where
  result : CheckResult
  timestamp : Nat
deriving Repr, DecidableEq

/-- The numberCache field: a JS Map keyed by formatted number. -/
abbrev Cache := List (List Char × CacheEntry)

/-- cacheExpiry, one hour in milliseconds (line 660). -/
def cacheExpiry : Nat := 60 * 60 * 1000

/-- JS Map.prototype.get on the cache. -/
def cacheGet (cache : Cache) (k : List Char) : Option CacheEntry :=
  assocGet cache k

/-- JS Map.prototype.delete on the cache. -/
def cacheDelete (cache : Cache) (k : List Char) : Cache :=
  cache.filter (fun p => decide (p.1 ≠ k))

/-- The method getCachedResult (lines 1299-1311): a fresh entry is a hit,
a stale entry is deleted and a miss, an absent key is a miss. -/
def getCachedResult (cache : Cache) (cacheKey : List Char) (now : Nat) :
    Option CheckResult × Cache :=
  match cacheGet cache cacheKey with
  | some cached =>
    if now - cached.timestamp < cacheExpiry then (some cached.result, cache)
    else (none, cacheDelete cache cacheKey)
  | none => (none, cache)

/-- The method cleanupCache (lines 1338-1346): delete every entry whose
age is at least cacheExpiry. -/
def cleanupCache (cache : Cache) (now : Nat) : Cache :=
  cache.filter (fun p => decide (now - p.2.timestamp < cacheExpiry))

/-- The method setCachedResult (lines 1318-1333): error results are not
cached; after the write a full sweep runs if the size exceeds 1000. -/
def setCachedResult (cache : Cache) (cacheKey : List Char) (result : CheckResult)
    (now : Nat) : Cache :=
  if result.status = CheckStatus.error then cache
  else
    let cache1 := assocSet cache cacheKey ⟨result, now⟩
    if 1000 < cache1.length then cleanupCache cache1 now else cache1

/-- The userSessions entry created by initializeUserSession (lines
729-735). -/
structure UserSession where
  isReady : Bool
  isInitializing : Bool
  socketId : String
  manuallyDisconnected : Bool
  initStartTime : Nat
deriving Repr, DecidableEq

/-- The userSessions field: a JS Map keyed by userId. -/
abbrev Sessions := List (String × UserSession)

def sessionsGet (m : Sessions) (userId : String) : Option UserSession :=
  assocGet m userId

def sessionsSet (m : Sessions) (userId : String) (s : UserSession) : Sessions :=
  assocSet m userId s

/-- The clients field, reduced to the set of userIds that own a live
Protocol Client. -/
abbrev Clients := List String

def clientsDelete (cl : Clients) (userId : String) : Clients :=
  cl.filter (fun v => decide (v ≠ userId))

def clientsSet (cl : Clients) (userId : String) : Clients :=
  if cl.contains userId then cl else cl ++ [userId]

/-- Outcome of one initializeUserSession call: the new maps and how many
Protocol Clients the call constructed. -/
structure InitOutcome where
  sessions : Sessions
  clients : Clients
  constructed : Nat
deriving Repr, DecidableEq

/-- The tail of initializeUserSession after the stuck-initialization
check (lines 720-777): the already-ready early return, then fresh session
tracking and Protocol Client construction (construction modelled as
succeeding). -/
def initFresh (sessions : Sessions) (clients : Clients)
    (userId socketId : String) (now : Nat) : InitOutcome :=
  match sessionsGet sessions userId with
  | some s =>
    if s.isReady then ⟨sessions, clients, 0⟩
    else
      ⟨sessionsSet sessions userId ⟨false, true, socketId, false, now⟩,
        clientsSet clients userId, 1⟩
  | none =>
    ⟨sessionsSet sessions userId ⟨false, true, socketId, false, now⟩,
      clientsSet clients userId, 1⟩

/-- The method initializeUserSession (lines 684-777).  While a session is
initializing, a repeat call is a no-op unless the elapsed time since
initStartTime exceeds 60000 ms, in which case the stale client is dropped
and initialization restarts (the JS initStartTime-or-now fallback of line
690 is kept for a stored time of 0). -/
def initializeUserSession (sessions : Sessions) (clients : Clients)
    (userId socketId : String) (now : Nat) : InitOutcome :=
  match sessionsGet sessions userId with
  | some s =>
    if s.isInitializing then
      let initStartTime := if s.initStartTime = 0 then now else s.initStartTime
      if 60000 < now - initStartTime then
        initFresh (sessionsSet sessions userId { s with isInitializing := false })
          (clientsDelete clients userId) userId socketId now
      else ⟨sessions, clients, 0⟩
    else initFresh sessions clients userId socketId now
  | none => initFresh sessions clients userId socketId now

/-- The method checkNumber (lines 870-944).  The Protocol Client query
socket.onWhatsApp is the oracle net; the same timestamp now serves the
cache read and the cache write of one call.  The invalid-result object of
the source leaves fromCache undefined, modelled as false. -/
def checkNumber (net : List Char → Except String Bool) (hasSocket : Bool)
    (userSession : Option UserSession) (cache : Cache) (now : Nat)
    (number : List Char) : Except String (CheckResult × Cache) :=
  if hasSocket = false then .error "WhatsApp socket is not ready for this user"
  else
    match userSession with
    | none => .error "WhatsApp socket is not ready for this user"
    | some us =>
      if us.isReady = false then .error "WhatsApp socket is not ready for this user"
      else
        let validation := validateNumber number
        if validation.isValid = false then
          .ok (⟨number, none, .invalid, none, validation.err, none, false⟩, cache)
        else
          let cacheKey := validation.formattedNumber.getD []
          match getCachedResult cache cacheKey now with
          | (some cachedResult, cache1) =>
            .ok ({ cachedResult with originalNumber := number, fromCache := true },
              cache1)
          | (none, cache1) =>
            match net (formatForWhatsApp cacheKey ++ "@s.whatsapp.net".data) with
            | .ok registered =>
              let checkResult : CheckResult :=
                ⟨number, validation.formattedNumber, .valid, some registered,
                  none, validation.network, false⟩
              .ok (checkResult, setCachedResult cache1 cacheKey checkResult now)
            | .error e =>
              .ok (⟨number, validation.formattedNumber, .error, none,
                some ("Check failed: " ++ e), validation.network, false⟩, cache1)

/-- One slot write of the batch loop: results[actualIndex] = result
(lines 981 and 1003). -/
def writeSlot (results : List (Option CheckResult)) (i : Nat) (r : CheckResult) :
    List (Option CheckResult) :=
  results.set i (some r)

/-- The result array of length n after the batch members complete in the
order ord; item i is the outcome of the member for index i (its try-branch
result or its catch-branch error result).  Promise.all makes every batch
wait for all of its members, so a completed run's ord contains every index
below n; members of one batch may complete in any order. -/
def runBatches (n : Nat) (item : Nat → CheckResult) (ord : List Nat) :
    List (Option CheckResult) :=
  ord.foldl (fun acc i => writeSlot acc i (item i)) (List.replicate n none)

/-- The method checkNumbers (lines 953-1030): the readiness and size
guards, then the concurrent batched loop writing results by index.  The
per-item outcome is abstracted by item, a function of the slot index and
the identifier at that index, since members run against evolving shared
cache and rate state. -/
def checkNumbers (hasSocket : Bool) (userSession : Option UserSession)
    (numbers : List (List Char)) (item : Nat → List Char → CheckResult)
    (ord : List Nat) : Except String (List (Option CheckResult)) :=
  if hasSocket = false then .error "WhatsApp socket is not ready for this user"
  else
    match userSession with
    | none => .error "WhatsApp socket is not ready for this user"
    | some us =>
      if us.isReady = false then .error "WhatsApp socket is not ready for this user"
      else if numbers.length = 0 then .error "Invalid numbers array"
      else if 5000 < numbers.length then .error "Maximum 5000 numbers allowed at once"
      else .ok (runBatches numbers.length (fun i => item i (numbers.getD i [])) ord)

/-- The method waitForRateLimit (lines 1035-1045), as a function of the
lastCheckTime value it reads and of Date.now() at entry: the returned
value is the time at which the wait ends, which the method stores back
into lastCheckTime and at which the caller's query starts.  The await of
the sleep suspends between the read and the write. -/
def waitForRateLimit (lastCheckTime now : Int) : Int :=
  if now - lastCheckTime < 2000 then now + (2000 - (now - lastCheckTime))
  else now

/-- The rate gate as checkNumber invokes it (line 906): the service keeps
one lastCheckTime field for all users (line 675) and waitForRateLimit
takes no user argument, so the session's userId plays no role. -/
def rateGateFor (userId : String) (lastCheckTime now : Int) : Int :=
  waitForRateLimit lastCheckTime now

/-- Filesystem paths: path.join base name. -/
def pathJoin (base name : List Char) : List Char :=
  base ++ '/' :: name

/-- The directory name prefix of the per-user credential store that
initializeUserSession binds the Protocol Client to (line 745). -/
def userDirMarker : List Char := ['u', 's', 'e', 'r', '-']

/-- The directory name prefix of the path that restart removes
(line 1148). -/
def sessionDirMarker : List Char := ['s', 'e', 's', 's', 'i', 'o', 'n', '-']

/-- The per-user credential directory loaded by initializeUserSession:
path.join baseSessionPath of the string user- followed by the userId. -/
def userSessionPath (base userId : List Char) : List Char :=
  pathJoin base (userDirMarker ++ userId)

/-- The credentials file inside the per-user credential directory
(findExistingSession, line 1082). -/
def credsPath (base userId : List Char) : List Char :=
  pathJoin (userSessionPath base userId) ['c', 'r', 'e', 'd', 's', '.', 'j', 's', 'o', 'n']

/-- The path restart removes: path.join baseSessionPath of the string
session- followed by the userId (line 1148). -/
def restartClearedPath (base userId : List Char) : List Char :=
  pathJoin base (sessionDirMarker ++ userId)

/-- fs.remove deletes the named path and everything below it; a
filesystem is the list of its paths. -/
def fsRemove (fs : List (List Char)) (p : List Char) : List (List Char) :=
  fs.filter (fun q => decide (¬ (q = p ∨ (p ++ ['/']) <+: q)))

/-- The on-disk effect of restart (lines 1147-1154). -/
def restartFsEffect (fs : List (List Char)) (base userId : List Char) :
    List (List Char) :=
  fsRemove fs (restartClearedPath base userId)

/-- One cache access of a batch run, the only two mutation shapes the
cache undergoes during checkNumber (lines 894 and 927). -/
inductive CacheOp
  | get (k : List Char) (now : Nat)
  | set (k : List Char) (r : CheckResult) (now : Nat)

/-- Apply one cache access. -/
def applyCacheOp (cache : Cache) : CacheOp → Cache
  | .get k now => (getCachedResult cache k now).2
  | .set k r now => setCachedResult cache k r now

/-- Apply a sequence of cache accesses, one per interleaved step of the
concurrent batch workers. -/
def applyCacheOps (cache : Cache) (ops : List CacheOp) : Cache :=
  ops.foldl applyCacheOp cache

/-- No entry of the cache holds a result with status error. -/
def noErrorEntries (cache : Cache) : Prop :=
  ∀ p ∈ cache, p.2.result.status ≠ CheckStatus.error

/-- Every entry of the cache holds a result with status valid (what
setCachedResult stores on the only path that writes). -/
def cacheResultsValid (cache : Cache) : Prop :=
  ∀ p ∈ cache, p.2.result.status = CheckStatus.valid

end WhatsAppService

namespace NumberValidator

/-! Helper lemmas about the validator functions. -/

theorem whitespace_not_digit (c : Char) (h : c.isWhitespace = true) : c.isDigit = false := by
  simp [Char.isWhitespace] at h
  rcases h with ((h | h) | h) | h <;> subst h <;> decide

theorem filter_dropWhile_eq (q p : Char → Bool) (hqp : ∀ a, q a = true → p a = false) :
    ∀ l : List Char, (l.dropWhile q).filter p = l.filter p := by
  intro l
  induction l with
  | nil => rfl
  | cons c t ih =>
    by_cases hq : q c
    · rw [List.dropWhile_cons_of_pos hq, ih, List.filter_cons_of_neg]
      simp [hqp c hq]
    · rw [List.dropWhile_cons_of_neg]
      simp [hq]

theorem filter_digit_trimChars (l : List Char) :
    (trimChars l).filter Char.isDigit = l.filter Char.isDigit := by
  unfold trimChars
  rw [List.filter_reverse, filter_dropWhile_eq _ _ whitespace_not_digit,
    List.filter_reverse, List.reverse_reverse,
    filter_dropWhile_eq _ _ whitespace_not_digit]

theorem startsWithPlus_shape (l : List Char) (h : startsWithPlus l = true) :
    ∃ t, l = '+' :: t := by
  unfold startsWithPlus at h
  split at h
  · exact ⟨_, rfl⟩
  · exact absurd h (by simp)

theorem startsWithPlus_eq_false (c : Char) (t : List Char) (h : c ≠ '+') :
    startsWithPlus (c :: t) = false := by
  unfold startsWithPlus
  split
  · rename_i heq
    cases heq
    exact absurd rfl h
  · rfl

theorem startsWithPlus_eq_false_of_digits (l : List Char)
    (hdig : ∀ c ∈ l, c.isDigit = true) : startsWithPlus l = false := by
  cases l with
  | nil => rfl
  | cons c t =>
    refine startsWithPlus_eq_false c t (fun hc => ?_)
    subst hc
    have := hdig '+' (List.mem_cons_self _ _)
    simp at this

theorem filter_digit_dropLeadingPlus (l : List Char) :
    (dropLeadingPlus l).filter Char.isDigit = l.filter Char.isDigit := by
  unfold dropLeadingPlus
  split
  · rw [List.filter_cons_of_neg]
    decide
  · rfl

theorem cleanNumber_eq_filter (l : List Char) :
    cleanNumber l = l.filter Char.isDigit := by
  unfold cleanNumber
  rw [filter_digit_dropLeadingPlus, filter_digit_trimChars]

theorem cleanNumber_all_digits (l : List Char) :
    ∀ c ∈ cleanNumber l, c.isDigit = true := by
  rw [cleanNumber_eq_filter]
  intro c hc
  exact (List.mem_filter.mp hc).2

theorem pakAlt92_length (l m : List Char) (h : pakAlt92 l = some m) : m.length = 9 := by
  unfold pakAlt92 at h
  split at h
  · rename_i rest heq
    split at h
    · rename_i hcond
      simp at hcond
      cases h
      simp [List.length_take]
      omega
    · exact absurd h (by simp)
  · exact absurd h (by simp)

theorem pakAlt0_length (l m : List Char) (h : pakAlt0 l = some m) : m.length = 9 := by
  unfold pakAlt0 at h
  split at h
  · rename_i rest heq
    split at h
    · rename_i hcond
      simp at hcond
      cases h
      simp [List.length_take]
      omega
    · exact absurd h (by simp)
  · exact absurd h (by simp)

theorem pakAlt3_length (l m : List Char) (h : pakAlt3 l = some m) : m.length = 9 := by
  unfold pakAlt3 at h
  split at h
  · rename_i rest heq
    split at h
    · rename_i hcond
      simp at hcond
      cases h
      simp [List.length_take]
      omega
    · exact absurd h (by simp)
  · exact absurd h (by simp)

theorem pakMatchAt_length (l m : List Char) (h : pakMatchAt l = some m) : m.length = 9 := by
  unfold pakMatchAt at h
  cases h1 : pakAlt92 l with
  | some v =>
    rw [h1] at h
    simp at h
    subst h
    exact pakAlt92_length l v h1
  | none =>
    rw [h1] at h
    simp at h
    cases h2 : pakAlt0 l with
    | some v =>
      rw [h2] at h
      simp at h
      subst h
      exact pakAlt0_length l v h2
    | none =>
      rw [h2] at h
      simp at h
      exact pakAlt3_length l m h

theorem findPakMatch_length (l m : List Char) (h : findPakMatch l = some m) :
    m.length = 9 := by
  induction l with
  | nil => simp [findPakMatch] at h
  | cons c t ih =>
    unfold findPakMatch at h
    cases h1 : pakMatchAt (c :: t) with
    | some v =>
      rw [h1] at h
      simp at h
      subst h
      exact pakMatchAt_length _ _ h1
    | none =>
      rw [h1] at h
      simp at h
      exact ih h

theorem validatePakistaniNumber_len9 (m : List Char) (hm : m.length = 9) :
    (validatePakistaniNumber ('+' :: '9' :: '2' :: m)).isValid = false := by
  unfold validatePakistaniNumber
  have h1 : startsWithPlus92 ('+' :: '9' :: '2' :: m) = true := rfl
  have h2 : ('+' :: '9' :: '2' :: m).drop 3 = m := rfl
  simp only [h1, Bool.not_true, Bool.false_eq_true, if_false, h2, hm]
  norm_num

theorem validateInternationalNumber_out_of_range (cleaned : List Char)
    (h : cleaned.length < 7 ∨ 15 < cleaned.length) :
    (validateInternationalNumber cleaned).isValid = false := by
  unfold validateInternationalNumber
  have hcond : (decide (cleaned.length < 7) || decide (15 < cleaned.length)) = true := by
    rcases h with h | h <;> simp [h]
  simp [hcond]

theorem formatNumber_out_of_range (cleaned : List Char)
    (hdig : ∀ c ∈ cleaned, c.isDigit = true)
    (h : cleaned.length < 7 ∨ 15 < cleaned.length) :
    formatNumber cleaned = none ∨
      ∃ m, formatNumber cleaned = some ('+' :: '9' :: '2' :: m) ∧ m.length = 9 := by
  rcases h with h7 | h15
  · left
    unfold formatNumber
    simp [h7]
  · have hne : cleaned.isEmpty = false := by
      cases cleaned with
      | nil => simp at h15
      | cons c t => rfl
    have hlt : ¬ cleaned.length < 7 := by omega
    have hplus : startsWithPlus cleaned = false := startsWithPlus_eq_false_of_digits cleaned hdig
    have h12 : cleaned.length ≠ 12 := by omega
    have h11 : cleaned.length ≠ 11 := by omega
    have h10 : cleaned.length ≠ 10 := by omega
    have hgt12 : 12 < cleaned.length := by omega
    have hle15 : ¬ cleaned.length ≤ 15 := by omega
    unfold formatNumber
    cases hfp : findPakMatch cleaned with
    | some m =>
      right
      refine ⟨m, ?_, findPakMatch_length cleaned m hfp⟩
      simp [hne, hlt, hplus, h12, h11, h10, hgt12, hfp]
    | none =>
      left
      have hc6 : formatCase6 cleaned = none := by
        unfold formatCase6
        simp [hle15]
      simp [hne, hlt, hplus, h12, h11, h10, hgt12, hfp, hc6]

theorem intlRegexTest_shape (f : List Char) (h : intlRegexTest f = true) :
    ∃ ds, f = '+' :: ds ∧ (∀ c ∈ ds, c.isDigit = true) ∧ 7 ≤ ds.length ∧ ds.length ≤ 14 := by
  unfold intlRegexTest at h
  split at h
  · rename_i ds
    simp only [Bool.and_eq_true, decide_eq_true_eq, List.all_eq_true] at h
    exact ⟨ds, rfl, h.1.1, h.1.2, h.2⟩
  · exact absurd h (by simp)

theorem startsWithPlus92_shape (l : List Char) (h : startsWithPlus92 l = true) :
    ∃ t, l = '+' :: '9' :: '2' :: t := by
  unfold startsWithPlus92 at h
  split at h
  · exact ⟨_, rfl⟩
  · exact absurd h (by simp)

theorem validateInternationalNumber_valid_shape (cleaned : List Char)
    (h : (validateInternationalNumber cleaned).isValid = true) :
    ∃ ds, (validateInternationalNumber cleaned).formattedNumber = some ('+' :: ds) ∧
      (∀ c ∈ ds, c.isDigit = true) ∧ 7 ≤ ds.length ∧ ds.length ≤ 14 := by
  unfold validateInternationalNumber at h ⊢
  split at h
  · simp at h
  · rename_i hlen
    rw [if_neg hlen]
    dsimp only at h ⊢
    by_cases hre : intlRegexTest (intlFormat cleaned) = true
    · obtain ⟨ds, hds, hdig, h7, h14⟩ := intlRegexTest_shape _ hre
      refine ⟨ds, ?_, hdig, h7, h14⟩
      rw [if_pos hre]
      rw [hds]
    · rw [if_neg hre] at h
      simp at h

theorem validatePakistaniNumber_valid_shape (f : List Char)
    (h : (validatePakistaniNumber f).isValid = true) :
    ∃ t, f = '+' :: '9' :: '2' :: t ∧ (∀ c ∈ t, c.isDigit = true) ∧ t.length = 10 := by
  unfold validatePakistaniNumber at h
  by_cases h92 : startsWithPlus92 f = true
  · obtain ⟨t, rfl⟩ := startsWithPlus92_shape f h92
    have hdrop : ('+' :: '9' :: '2' :: t).drop 3 = t := rfl
    simp only [h92, Bool.not_true, Bool.false_eq_true, if_false, hdrop] at h
    by_cases hlen : t.length = 10
    · by_cases hdig : t.all Char.isDigit = true
      · exact ⟨t, rfl, fun c hc => List.all_eq_true.mp hdig c hc, hlen⟩
      · have hdf : t.all Char.isDigit = false := by
          simpa using hdig
        simp [hlen, hdf] at h
    · simp [hlen] at h
  · simp [h92] at h

theorem validateNumber_valid_shape (s : List Char)
    (h : (validateNumber s).isValid = true) :
    ∃ d, (validateNumber s).formattedNumber = some ('+' :: d) ∧
      (∀ c ∈ d, c.isDigit = true) ∧ 7 ≤ d.length ∧ d.length ≤ 14 := by
  unfold validateNumber at h ⊢
  by_cases hemp : (cleanNumber s).isEmpty
  · simp [hemp] at h
  · have hempf : (cleanNumber s).isEmpty = false := by simpa using hemp
    simp only [hempf, Bool.false_eq_true, if_false] at h ⊢
    by_cases hintl : (validateInternationalNumber (cleanNumber s)).isValid = true
    · simp only [hintl, if_true]
      exact validateInternationalNumber_valid_shape _ hintl
    · simp only [hintl, Bool.false_eq_true, if_false] at h ⊢
      cases hfm : formatNumber (cleanNumber s) with
      | none => simp [hfm] at h
      | some f =>
        simp only [hfm] at h ⊢
        have hpv : (validatePakistaniNumber f).isValid = true := by
          simpa using h
        obtain ⟨t, rfl, hdig, hlen⟩ := validatePakistaniNumber_valid_shape f hpv
        refine ⟨'9' :: '2' :: t, ?_, ?_, ?_, ?_⟩
        · simp [hpv]
        · intro c hc
          rcases List.mem_cons.mp hc with rfl | hc
          · decide
          rcases List.mem_cons.mp hc with rfl | hc
          · decide
          exact hdig c hc
        · simp [hlen]
        · simp [hlen]

theorem intlFormat_digits (d : List Char)
    (hdig : ∀ c ∈ d, c.isDigit = true)
    (h00 : startsWith00 d = false)
    (h03 : ¬ (d.length = 11 ∧ startsWith03 d = true)) :
    intlFormat d = '+' :: d := by
  unfold intlFormat
  have hplus := startsWithPlus_eq_false_of_digits d hdig
  simp only [hplus, h00, Bool.false_eq_true, if_false]
  by_cases h10 : 10 ≤ d.length
  · by_cases h0 : startsWith0 d = true
    · have hinner : (decide (d.length = 11) && startsWith03 d) = false := by
        by_cases h11 : d.length = 11
        · have h03f : startsWith03 d = false := by
            cases hb : startsWith03 d
            · rfl
            · exact absurd ⟨h11, hb⟩ h03
          simp [h03f]
        · simp [h11]
      simp [h0, h10, hinner]
    · simp [h0, h10]
  · have h0and : ∀ b : Bool, (b && decide (10 ≤ d.length)) = false := by
      intro b
      simp [h10]
    simp [h10, h0and]

theorem validateNumber_digits_accepted (d : List Char)
    (hdig : ∀ c ∈ d, c.isDigit = true)
    (h7 : 7 ≤ d.length) (h14 : d.length ≤ 14)
    (h00 : startsWith00 d = false)
    (h03 : ¬ (d.length = 11 ∧ startsWith03 d = true)) :
    validateNumber ('+' :: d) =
      ⟨true, d, some ('+' :: d), none, some "International"⟩ := by
  have hclean : cleanNumber ('+' :: d) = d := by
    rw [cleanNumber_eq_filter, List.filter_cons_of_neg (by decide)]
    exact List.filter_eq_self.mpr hdig
  have hempf : d.isEmpty = false := by
    cases d with
    | nil => simp at h7
    | cons c t => rfl
  have hre : intlRegexTest ('+' :: d) = true := by
    have hstep : intlRegexTest ('+' :: d) =
        (d.all Char.isDigit && decide (7 ≤ d.length) && decide (d.length ≤ 14)) := rfl
    rw [hstep]
    simp only [Bool.and_eq_true, decide_eq_true_eq, List.all_eq_true]
    exact ⟨⟨hdig, h7⟩, h14⟩
  have hintl : validateInternationalNumber d =
      ⟨true, d, some ('+' :: d), none, some "International"⟩ := by
    unfold validateInternationalNumber
    rw [if_neg (by
      simp only [Bool.or_eq_true, decide_eq_true_eq]
      omega)]
    dsimp only
    rw [intlFormat_digits d hdig h00 h03, if_pos hre]
  unfold validateNumber
  simp [hclean, hempf, hintl]

end NumberValidator


open NumberValidator in
/-- C1 counterexample: the input given in the claim does normalize to the
stated canonical identifier, but its carrier tag is the generic
"International" rather than the carrier resolved from the 3-digit prefix
321 (which the static table maps to "Ufone"), because validateNumber runs
the generic international rule before consulting the prefix table. -/
theorem c1_counterexample :
    (validateNumber "03211234567".data).formattedNumber = some "+923211234567".data ∧
    lookupNetwork "321".data = some "Ufone" ∧
    (validateNumber "03211234567".data).network = some "International" ∧
    (validateNumber "03211234567".data).network ≠ some "Ufone" := by
  refine ⟨by decide, by decide, by decide, by decide⟩

open NumberValidator in
/-- C1 amended: normalizing the input "03211234567" yields the canonical
identifier "+923211234567", accepted as valid, but the result carries the
generic "International" tag; the prefix-to-carrier table is not consulted
because the international validation path accepts the number first. -/
theorem c1_amended_international_tag :
    (validateNumber "03211234567".data).isValid = true ∧
    (validateNumber "03211234567".data).formattedNumber = some "+923211234567".data ∧
    (validateNumber "03211234567".data).network = some "International" := by
  refine ⟨by decide, by decide, by decide⟩

open NumberValidator in
/-- C9: validateNumber rejects (isValid = false) empty input and any input
whose digit count after cleaning falls outside the range 7 to 15, including
long inputs that embed a national-scheme-looking digit pattern (the
embedded-pattern extraction of formatNumber captures only 9 digits, which
validatePakistaniNumber then rejects). -/
theorem c9_out_of_range_rejected (s : List Char)
    (h : s = [] ∨ (cleanNumber s).length < 7 ∨ 15 < (cleanNumber s).length) :
    (validateNumber s).isValid = false := by
  rcases h with rfl | h
  · decide
  · by_cases hemp : (cleanNumber s).isEmpty = true
    · simp [validateNumber, hemp]
    · have hempf : (cleanNumber s).isEmpty = false := by simpa using hemp
      have hintl := validateInternationalNumber_out_of_range (cleanNumber s) h
      rcases formatNumber_out_of_range (cleanNumber s) (cleanNumber_all_digits s) h with
        hfmt | ⟨m, hfmt, hm⟩
      · simp [validateNumber, hempf, hintl, hfmt]
      · simp [validateNumber, hempf, hintl, hfmt, validatePakistaniNumber_len9 m hm]

open NumberValidator in
/-- C9 witness: a 16-digit input that embeds a national-scheme-looking
pattern is rejected. -/
theorem c9_out_of_range_rejected_witness :
    (15 < (cleanNumber "9232112345678901".data).length) ∧
    (validateNumber "9232112345678901".data).isValid = false :=
  ⟨by decide, c9_out_of_range_rejected _ (Or.inr (Or.inr (by decide)))⟩

open NumberValidator in
/-- C10 counterexample: normalization is not idempotent. The input
"000012345678" is accepted with canonical identifier "+0012345678", but
re-validating that canonical identifier yields the different canonical
identifier "+12345678" (the leading 00 of the digit portion is rewritten
again). -/
theorem c10_counterexample :
    (validateNumber "000012345678".data).isValid = true ∧
    (validateNumber "000012345678".data).formattedNumber = some "+0012345678".data ∧
    (validateNumber "+0012345678".data).isValid = true ∧
    (validateNumber "+0012345678".data).formattedNumber = some "+12345678".data ∧
    some "+12345678".data ≠ some "+0012345678".data := by
  refine ⟨by decide, by decide, by decide, by decide, by decide⟩

open NumberValidator in
/-- C10 amended: for every input accepted as valid with canonical
identifier c, re-validating c returns valid with the same canonical
identifier, provided the digit portion of c does not start with 00 and is
not an 11-digit string starting with 03 (exactly the two shapes, reachable
only from inputs whose digits start with 00, on which the second pass
rewrites the number again). -/
theorem c10_amended_idempotent (s c : List Char)
    (hval : (validateNumber s).isValid = true)
    (hfmt : (validateNumber s).formattedNumber = some c)
    (h00 : startsWith00 (c.drop 1) = false)
    (h03 : ¬ ((c.drop 1).length = 11 ∧ startsWith03 (c.drop 1) = true)) :
    (validateNumber c).isValid = true ∧
    (validateNumber c).formattedNumber = some c := by
  obtain ⟨d, hd, hdig, h7, h14⟩ := validateNumber_valid_shape s hval
  rw [hfmt] at hd
  injection hd with hc
  subst hc
  have hdrop : (('+' :: d).drop 1) = d := rfl
  rw [hdrop] at h00 h03
  rw [validateNumber_digits_accepted d hdig h7 h14 h00 h03]
  exact ⟨rfl, rfl⟩

open NumberValidator in
/-- C10 amended witness: the spec's own international example is a fixed
point of validateNumber. -/
theorem c10_amended_idempotent_witness :
    (validateNumber "+14155550123".data).isValid = true ∧
    (validateNumber "+14155550123".data).formattedNumber = some "+14155550123".data :=
  c10_amended_idempotent "+14155550123".data "+14155550123".data
    (by decide) (by decide) (by decide) (by decide)

namespace WhatsAppService

/-! Association-list lemmas shared by the cache and session proofs. -/

theorem assocGet_map_set {α β : Type} [DecidableEq α] (m : List (α × β)) (k : α) (v : β)
    (h : (assocGet m k).isSome) :
    assocGet (m.map (fun p => if p.1 = k then (k, v) else p)) k = some v := by
  induction m with
  | nil => simp [assocGet] at h
  | cons p t ih =>
    by_cases hp : p.1 = k
    · simp [assocGet, hp]
    · have h' : (assocGet t k).isSome := by simpa [assocGet, hp] using h
      simp [assocGet, hp, ih h']

theorem assocGet_append_self {α β : Type} [DecidableEq α] (m : List (α × β)) (k : α) (v : β)
    (h : assocGet m k = none) :
    assocGet (m ++ [(k, v)]) k = some v := by
  induction m with
  | nil => simp [assocGet]
  | cons p t ih =>
    by_cases hp : p.1 = k
    · simp [assocGet, hp] at h
    · have h' : assocGet t k = none := by simpa [assocGet, hp] using h
      simp [assocGet, hp, ih h']

theorem assocGet_set_self {α β : Type} [DecidableEq α] (m : List (α × β)) (k : α) (v : β) :
    assocGet (assocSet m k v) k = some v := by
  unfold assocSet
  by_cases h : (assocGet m k).isSome
  · rw [if_pos h]
    exact assocGet_map_set m k v h
  · rw [if_neg h]
    apply assocGet_append_self
    cases hg : assocGet m k with
    | none => rfl
    | some v2 => rw [hg] at h; simp at h

theorem mem_assocSet {α β : Type} [DecidableEq α] (m : List (α × β)) (k : α) (v : β)
    (p : α × β) (hp : p ∈ assocSet m k v) : p ∈ m ∨ p = (k, v) := by
  unfold assocSet at hp
  by_cases h : (assocGet m k).isSome
  · rw [if_pos h] at hp
    obtain ⟨q, hq, hqe⟩ := List.mem_map.mp hp
    by_cases hqk : q.1 = k
    · right
      rw [← hqe]
      simp [hqk]
    · left
      rw [← hqe]
      simp only [hqk, if_false]
      exact hq
  · rw [if_neg h] at hp
    rcases List.mem_append.mp hp with h1 | h1
    · left; exact h1
    · right; simpa using h1

theorem cacheGet_delete_self (cache : Cache) (k : List Char) :
    cacheGet (cacheDelete cache k) k = none := by
  induction cache with
  | nil => rfl
  | cons p t ih =>
    by_cases hp : p.1 = k
    · simpa [cacheDelete, cacheGet, List.filter_cons, hp] using ih
    · simpa [cacheDelete, cacheGet, assocGet, List.filter_cons, hp] using ih

theorem assocGet_mem {α β : Type} [DecidableEq α] (m : List (α × β)) (k : α) (e : β)
    (h : assocGet m k = some e) : (k, e) ∈ m := by
  induction m with
  | nil => simp [assocGet] at h
  | cons p t ih =>
    by_cases hp : p.1 = k
    · rw [assocGet, if_pos hp] at h
      have hpe : p = (k, e) := by
        cases p with
        | mk a b =>
          simp at hp h
          simp [hp, h]
      rw [← hpe]
      exact List.mem_cons_self p t
    · rw [assocGet, if_neg hp] at h
      exact List.mem_cons_of_mem p (ih h)

theorem getCachedResult_hit_shape (cache : Cache) (k : List Char) (now : Nat)
    (r : CheckResult) (c2 : Cache)
    (h : getCachedResult cache k now = (some r, c2)) :
    ∃ e, cacheGet cache k = some e ∧ r = e.result ∧ now - e.timestamp < cacheExpiry := by
  unfold getCachedResult at h
  cases hg : cacheGet cache k with
  | none =>
    rw [hg] at h
    simp at h
  | some e =>
    rw [hg] at h
    dsimp only at h
    by_cases hfresh : now - e.timestamp < cacheExpiry
    · rw [if_pos hfresh] at h
      refine ⟨e, rfl, ?_, hfresh⟩
      have := congrArg Prod.fst h
      simpa using this.symm
    · rw [if_neg hfresh] at h
      have := congrArg Prod.fst h
      simp at this

/-- Entries surviving any single cache operation either were present or
are the freshly written non-error entry. -/
theorem mem_applyCacheOp (cache : Cache) (op : CacheOp) (p : List Char × CacheEntry)
    (hp : p ∈ applyCacheOp cache op) :
    p ∈ cache ∨ ∃ k r now, p = (k, ⟨r, now⟩) ∧ r.status ≠ CheckStatus.error := by
  cases op with
  | get k now =>
    unfold applyCacheOp at hp
    dsimp only at hp
    unfold getCachedResult at hp
    cases hg : cacheGet cache k with
    | none =>
      rw [hg] at hp
      exact Or.inl hp
    | some e =>
      rw [hg] at hp
      dsimp only at hp
      by_cases hfresh : now - e.timestamp < cacheExpiry
      · rw [if_pos hfresh] at hp
        exact Or.inl hp
      · rw [if_neg hfresh] at hp
        exact Or.inl (List.mem_of_mem_filter hp)
  | set k r now =>
    unfold applyCacheOp at hp
    dsimp only at hp
    unfold setCachedResult at hp
    by_cases herr : r.status = CheckStatus.error
    · rw [if_pos herr] at hp
      exact Or.inl hp
    · rw [if_neg herr] at hp
      dsimp only at hp
      have hp1 : p ∈ assocSet cache k ⟨r, now⟩ := by
        by_cases hsz : 1000 < (assocSet cache k ⟨r, now⟩).length
        · rw [if_pos hsz] at hp
          exact List.mem_of_mem_filter hp
        · rw [if_neg hsz] at hp
          exact hp
      rcases mem_assocSet cache k ⟨r, now⟩ p hp1 with h1 | h1
      · exact Or.inl h1
      · exact Or.inr ⟨k, r, now, h1, herr⟩

theorem noErrorEntries_applyCacheOp (cache : Cache) (op : CacheOp)
    (h : noErrorEntries cache) : noErrorEntries (applyCacheOp cache op) := by
  intro p hp
  rcases mem_applyCacheOp cache op p hp with h1 | ⟨k, r, now, rfl, hr⟩
  · exact h p h1
  · exact hr

end WhatsAppService

open WhatsAppService in
/-- C7: getCachedResult treats an entry strictly older than the TTL as a
miss and deletes it, and every hit it returns comes from an entry whose
age is under the TTL, so an entry older than the TTL is never returned. -/
theorem c7_ttl_expiry :
    (∀ (cache : Cache) (k : List Char) (now : Nat) (e : CacheEntry),
      cacheGet cache k = some e → cacheExpiry < now - e.timestamp →
      getCachedResult cache k now = (none, cacheDelete cache k) ∧
      cacheGet (cacheDelete cache k) k = none) ∧
    (∀ (cache : Cache) (k : List Char) (now : Nat) (r : CheckResult) (c2 : Cache),
      getCachedResult cache k now = (some r, c2) →
      ∃ e, cacheGet cache k = some e ∧ r = e.result ∧ now - e.timestamp < cacheExpiry) := by
  constructor
  · intro cache k now e hg hold
    have hstale : ¬ now - e.timestamp < cacheExpiry := by omega
    constructor
    · unfold getCachedResult
      rw [hg]
      dsimp only
      rw [if_neg hstale]
    · exact cacheGet_delete_self cache k
  · intro cache k now r c2 h
    exact getCachedResult_hit_shape cache k now r c2 h

open WhatsAppService in
/-- C7 witness: a concrete entry written at time 0 and read at one hour
plus one millisecond is deleted and missed. -/
theorem c7_ttl_expiry_witness :
    getCachedResult
        [(['a'], ⟨⟨['a'], some ['a'], CheckStatus.valid, some true, none, none, false⟩, 0⟩)]
        ['a'] 3600001 =
      (none, cacheDelete
        [(['a'], ⟨⟨['a'], some ['a'], CheckStatus.valid, some true, none, none, false⟩, 0⟩)]
        ['a']) ∧
    cacheGet (cacheDelete
        [(['a'], ⟨⟨['a'], some ['a'], CheckStatus.valid, some true, none, none, false⟩, 0⟩)]
        ['a']) ['a'] = none :=
  c7_ttl_expiry.1
    [(['a'], ⟨⟨['a'], some ['a'], CheckStatus.valid, some true, none, none, false⟩, 0⟩)]
    ['a'] 3600001
    ⟨⟨['a'], some ['a'], CheckStatus.valid, some true, none, none, false⟩, 0⟩
    (by decide) (by decide)

open WhatsAppService in
/-- C4: setCachedResult is a no-op for a result whose status is error, and
a cache with no error-status entry keeps that property across any sequence
of the cache operations a Check call performs, in any interleaving. -/
theorem c4_error_never_cached :
    (∀ (cache : Cache) (k : List Char) (r : CheckResult) (now : Nat),
      r.status = CheckStatus.error → setCachedResult cache k r now = cache) ∧
    (∀ (cache : Cache) (ops : List CacheOp),
      noErrorEntries cache → noErrorEntries (applyCacheOps cache ops)) := by
  constructor
  · intro cache k r now h
    unfold setCachedResult
    rw [if_pos h]
  · intro cache ops
    induction ops generalizing cache with
    | nil => intro h; exact h
    | cons op rest ih =>
      intro h
      exact ih (applyCacheOp cache op) (noErrorEntries_applyCacheOp cache op h)

open WhatsAppService in
/-- C4 witness: writing a concrete error result leaves the cache
untouched, and a concrete operation sequence preserves the absence of
error entries. -/
theorem c4_error_never_cached_witness :
    setCachedResult [] ['a']
        ⟨['a'], some ['a'], CheckStatus.error, none, some "boom", none, false⟩ 5 = [] ∧
    noErrorEntries (applyCacheOps []
        [CacheOp.set ['a'] ⟨['a'], some ['a'], CheckStatus.valid, some true, none, none, false⟩ 0,
         CacheOp.get ['a'] 10]) :=
  ⟨c4_error_never_cached.1 [] ['a']
      ⟨['a'], some ['a'], CheckStatus.error, none, some "boom", none, false⟩ 5 rfl,
    c4_error_never_cached.2 []
      [CacheOp.set ['a'] ⟨['a'], some ['a'], CheckStatus.valid, some true, none, none, false⟩ 0,
       CacheOp.get ['a'] 10]
      (by intro p hp; simp at hp)⟩

open WhatsAppService NumberValidator in
/-- C8: a verification result produced by checkNumber with status invalid
has a null canonical identifier (formattedNumber) and a null registration
flag (hasWhatsApp); the cache-hit branch cannot produce one because cached
entries hold valid-status results. -/
theorem c8_invalid_implies_nulls
    (net : List Char → Except String Bool) (hasSocket : Bool)
    (us : Option UserSession) (cache : Cache) (now : Nat) (number : List Char)
    (r : CheckResult) (c2 : Cache)
    (hWF : cacheResultsValid cache)
    (h : checkNumber net hasSocket us cache now number = Except.ok (r, c2))
    (hinv : r.status = CheckStatus.invalid) :
    r.formattedNumber = none ∧ r.hasWhatsApp = none := by
  unfold checkNumber at h
  by_cases hs : hasSocket = false
  · rw [if_pos hs] at h
    simp at h
  · rw [if_neg hs] at h
    cases us with
    | none => simp at h
    | some u =>
      dsimp only at h
      by_cases hrd : u.isReady = false
      · rw [if_pos hrd] at h
        simp at h
      · rw [if_neg hrd] at h
        by_cases hv : (validateNumber number).isValid = false
        · rw [if_pos hv] at h
          simp only [Except.ok.injEq, Prod.mk.injEq] at h
          obtain ⟨h1, h2⟩ := h
          subst h1
          exact ⟨rfl, rfl⟩
        · rw [if_neg hv] at h
          rcases hm : getCachedResult cache ((validateNumber number).formattedNumber.getD []) now
            with ⟨ores, cache1⟩
          rw [hm] at h
          cases ores with
          | some cachedResult =>
            dsimp only at h
            simp only [Except.ok.injEq, Prod.mk.injEq] at h
            obtain ⟨h1, h2⟩ := h
            subst h1
            obtain ⟨e, hge, hres, hfresh⟩ :=
              getCachedResult_hit_shape cache _ now cachedResult cache1 hm
            have hmem := assocGet_mem cache _ e hge
            have hval := hWF _ hmem
            dsimp only at hinv hval
            rw [hres] at hinv
            rw [hval] at hinv
            exact absurd hinv (by simp)
          | none =>
            dsimp only at h
            cases hn : net (formatForWhatsApp ((validateNumber number).formattedNumber.getD []) ++
                "@s.whatsapp.net".data) with
            | ok registered =>
              rw [hn] at h
              dsimp only at h
              simp only [Except.ok.injEq, Prod.mk.injEq] at h
              obtain ⟨h1, h2⟩ := h
              subst h1
              simp at hinv
            | error e =>
              rw [hn] at h
              dsimp only at h
              simp only [Except.ok.injEq, Prod.mk.injEq] at h
              obtain ⟨h1, h2⟩ := h
              subst h1
              simp at hinv

open WhatsAppService NumberValidator in
/-- C8 witness: a ready session checking the non-number input from the
spec example yields an invalid result with both fields null. -/
theorem c8_invalid_implies_nulls_witness :
    (⟨"notanumber".data, none, CheckStatus.invalid, none,
        some "Empty or invalid number", none, false⟩ : CheckResult).formattedNumber = none ∧
    (⟨"notanumber".data, none, CheckStatus.invalid, none,
        some "Empty or invalid number", none, false⟩ : CheckResult).hasWhatsApp = none :=
  c8_invalid_implies_nulls (fun _ => Except.ok true) true
    (some ⟨true, false, "", false, 0⟩) [] 0 "notanumber".data
    ⟨"notanumber".data, none, CheckStatus.invalid, none,
      some "Empty or invalid number", none, false⟩ []
    (by intro p hp; simp at hp) (by rfl) (by rfl)

namespace WhatsAppService

theorem length_foldl_writeSlot (item : Nat → CheckResult) (ord : List Nat) :
    ∀ acc : List (Option CheckResult),
      (ord.foldl (fun acc i => writeSlot acc i (item i)) acc).length = acc.length := by
  induction ord with
  | nil => intro acc; rfl
  | cons j rest ih =>
    intro acc
    rw [List.foldl_cons, ih]
    exact List.length_set acc j (some (item j))

theorem length_runBatches (n : Nat) (item : Nat → CheckResult) (ord : List Nat) :
    (runBatches n item ord).length = n := by
  unfold runBatches
  rw [length_foldl_writeSlot]
  exact List.length_replicate n none

theorem foldl_writeSlot_get (n : Nat) (item : Nat → CheckResult) (ord : List Nat) :
    ∀ acc : List (Option CheckResult), acc.length = n →
      (∀ i, i < n → (i ∈ ord ∨ acc[i]? = some (some (item i)))) →
      ∀ i, i < n →
        (ord.foldl (fun acc i => writeSlot acc i (item i)) acc)[i]? = some (some (item i)) := by
  induction ord with
  | nil =>
    intro acc hlen hinv i hi
    rcases hinv i hi with hmem | hok
    · exact absurd hmem (List.not_mem_nil i)
    · exact hok
  | cons j rest ih =>
    intro acc hlen hinv i hi
    rw [List.foldl_cons]
    refine ih (writeSlot acc j (item j)) ?_ ?_ i hi
    · rw [writeSlot, List.length_set]
      exact hlen
    · intro i2 hi2
      rcases hinv i2 hi2 with hmem | hok
      · rcases List.mem_cons.mp hmem with rfl | hmem2
        · right
          rw [writeSlot]
          exact List.getElem?_set_eq_of_lt (some (item i2)) (hlen ▸ hi2)
        · left
          exact hmem2
      · right
        rw [writeSlot]
        by_cases hij : j = i2
        · subst hij
          exact List.getElem?_set_eq_of_lt (some (item j)) (hlen ▸ hi2)
        · rw [List.getElem?_set_ne hij]
          exact hok

theorem runBatches_get (n : Nat) (item : Nat → CheckResult) (ord : List Nat)
    (hord : ∀ i, i < n → i ∈ ord) (i : Nat) (hi : i < n) :
    (runBatches n item ord)[i]? = some (some (item i)) := by
  unfold runBatches
  refine foldl_writeSlot_get n item ord (List.replicate n none) (List.length_replicate n none)
    (fun i2 hi2 => Or.inl (hord i2 hi2)) i hi

end WhatsAppService

open WhatsAppService in
/-- C2: for every input list of 1 to 5000 identifiers and a ready session,
checkNumbers succeeds with a result sequence of exactly the input's
length in which slot i holds the outcome computed for the identifier at
index i, for every completion order ord that contains each index (as every
run's order does, since Promise.all awaits all batch members). -/
theorem c2_check_index_aligned (us : UserSession) (numbers : List (List Char))
    (item : Nat → List Char → CheckResult) (ord : List Nat)
    (hready : us.isReady = true)
    (h1 : 1 ≤ numbers.length) (h5 : numbers.length ≤ 5000)
    (hord : ∀ i, i < numbers.length → i ∈ ord) :
    ∃ res, checkNumbers true (some us) numbers item ord = Except.ok res ∧
      res.length = numbers.length ∧
      ∀ i, i < numbers.length → res[i]? = some (some (item i (numbers.getD i []))) := by
  refine ⟨runBatches numbers.length (fun i => item i (numbers.getD i [])) ord, ?_, ?_, ?_⟩
  · unfold checkNumbers
    have hr : ¬ us.isReady = false := by simp [hready]
    have hn0 : ¬ numbers.length = 0 := by omega
    have hn5 : ¬ 5000 < numbers.length := by omega
    simp [hr, hn0, hn5]
  · exact length_runBatches numbers.length _ ord
  · intro i hi
    exact runBatches_get numbers.length _ ord hord i hi

open WhatsAppService in
/-- C2 witness: a concrete two-element batch completed in reversed order
is still index-aligned. -/
theorem c2_check_index_aligned_witness :
    ∃ res, checkNumbers true (some ⟨true, false, "", false, 0⟩) [['1'], ['2']]
        (fun _ num => ⟨num, some num, CheckStatus.valid, some true, none, none, false⟩)
        [1, 0] = Except.ok res ∧
      res.length = 2 ∧
      ∀ i, i < 2 → res[i]? =
        some (some ((fun _ num =>
          (⟨num, some num, CheckStatus.valid, some true, none, none, false⟩ : CheckResult))
          i ([['1'], ['2']].getD i []))) :=
  c2_check_index_aligned ⟨true, false, "", false, 0⟩ [['1'], ['2']]
    (fun _ num => ⟨num, some num, CheckStatus.valid, some true, none, none, false⟩)
    [1, 0] rfl (by decide) (by decide) (by decide)

namespace WhatsAppService

theorem initializeUserSession_noop (sessions : Sessions) (clients : Clients)
    (u sock : String) (now : Nat) (s : UserSession)
    (hget : sessionsGet sessions u = some s) (hinit : s.isInitializing = true)
    (hfresh : now - (if s.initStartTime = 0 then now else s.initStartTime) ≤ 60000) :
    initializeUserSession sessions clients u sock now = ⟨sessions, clients, 0⟩ := by
  unfold initializeUserSession
  rw [hget]
  dsimp only
  rw [if_pos hinit]
  have hno : ¬ 60000 < now - (if s.initStartTime = 0 then now else s.initStartTime) := by
    omega
  rw [if_neg hno]

theorem initializeUserSession_fresh (sessions : Sessions) (clients : Clients)
    (u sock : String) (now : Nat)
    (hget : sessionsGet sessions u = none) :
    initializeUserSession sessions clients u sock now =
      ⟨sessionsSet sessions u ⟨false, true, sock, false, now⟩, clientsSet clients u, 1⟩ := by
  unfold initializeUserSession initFresh
  rw [hget]

theorem sessionsGet_set_self (m : Sessions) (u : String) (s : UserSession) :
    sessionsGet (sessionsSet m u s) u = some s := by
  unfold sessionsGet sessionsSet
  exact assocGet_set_self m u s

theorem initializeUserSession_stuck (sessions : Sessions) (clients : Clients)
    (u sock : String) (now : Nat) (s : UserSession)
    (hget : sessionsGet sessions u = some s) (hinit : s.isInitializing = true)
    (hready : s.isReady = false)
    (hstuck : 60000 < now - (if s.initStartTime = 0 then now else s.initStartTime)) :
    initializeUserSession sessions clients u sock now =
      ⟨sessionsSet (sessionsSet sessions u { s with isInitializing := false }) u
          ⟨false, true, sock, false, now⟩,
        clientsSet (clientsDelete clients u) u, 1⟩ := by
  unfold initializeUserSession
  rw [hget]
  dsimp only
  rw [if_pos hinit, if_pos hstuck]
  unfold initFresh
  rw [sessionsGet_set_self]
  dsimp only
  rw [if_neg (by simp [hready])]

end WhatsAppService

open WhatsAppService in
/-- C5: while a session is initializing and the elapsed time since its
initStartTime is at most the 60-second stuck threshold, a repeated
initializeUserSession call is a no-op constructing no Protocol Client, so
two back-to-back calls construct exactly one client; past the threshold
the stale client entry is dropped and a fresh initialization runs. -/
theorem c5_single_initialization :
    (∀ (sessions : Sessions) (clients : Clients) (u sock : String) (now : Nat)
        (s : UserSession),
      sessionsGet sessions u = some s → s.isInitializing = true →
      now - (if s.initStartTime = 0 then now else s.initStartTime) ≤ 60000 →
      initializeUserSession sessions clients u sock now = ⟨sessions, clients, 0⟩) ∧
    (∀ (sessions : Sessions) (clients : Clients) (u sock : String) (t1 t2 : Nat),
      sessionsGet sessions u = none → t2 - t1 ≤ 60000 →
      (initializeUserSession sessions clients u sock t1).constructed = 1 ∧
      initializeUserSession
          (initializeUserSession sessions clients u sock t1).sessions
          (initializeUserSession sessions clients u sock t1).clients u sock t2 =
        ⟨(initializeUserSession sessions clients u sock t1).sessions,
          (initializeUserSession sessions clients u sock t1).clients, 0⟩) ∧
    (∀ (sessions : Sessions) (clients : Clients) (u sock : String) (now : Nat)
        (s : UserSession),
      sessionsGet sessions u = some s → s.isInitializing = true → s.isReady = false →
      60000 < now - (if s.initStartTime = 0 then now else s.initStartTime) →
      (initializeUserSession sessions clients u sock now).constructed = 1 ∧
      sessionsGet (initializeUserSession sessions clients u sock now).sessions u =
        some ⟨false, true, sock, false, now⟩ ∧
      (initializeUserSession sessions clients u sock now).clients =
        clientsSet (clientsDelete clients u) u) := by
  refine ⟨?_, ?_, ?_⟩
  · intro sessions clients u sock now s hget hinit hfresh
    exact initializeUserSession_noop sessions clients u sock now s hget hinit hfresh
  · intro sessions clients u sock t1 t2 hget ht
    rw [initializeUserSession_fresh sessions clients u sock t1 hget]
    refine ⟨rfl, ?_⟩
    exact initializeUserSession_noop _ _ u sock t2 ⟨false, true, sock, false, t1⟩
      (sessionsGet_set_self sessions u _) rfl (by dsimp only; split <;> omega)
  · intro sessions clients u sock now s hget hinit hready hstuck
    rw [initializeUserSession_stuck sessions clients u sock now s hget hinit hready hstuck]
    exact ⟨rfl, sessionsGet_set_self _ u _, rfl⟩

open WhatsAppService in
/-- C5 witness: concrete instances of the no-op, the two-call and the
stuck-teardown parts. -/
theorem c5_single_initialization_witness :
    (initializeUserSession [("u", ⟨false, true, "sock", false, 100⟩)] ["u"] "u" "sock" 200 =
      ⟨[("u", ⟨false, true, "sock", false, 100⟩)], ["u"], 0⟩) ∧
    ((initializeUserSession [] [] "u" "sock" 50).constructed = 1 ∧
      initializeUserSession (initializeUserSession [] [] "u" "sock" 50).sessions
          (initializeUserSession [] [] "u" "sock" 50).clients "u" "sock" 60000 =
        ⟨(initializeUserSession [] [] "u" "sock" 50).sessions,
          (initializeUserSession [] [] "u" "sock" 50).clients, 0⟩) ∧
    ((initializeUserSession [("u", ⟨false, true, "sock", false, 100⟩)] ["u"] "u" "sock" 70000).constructed = 1 ∧
      sessionsGet (initializeUserSession [("u", ⟨false, true, "sock", false, 100⟩)] ["u"]
          "u" "sock" 70000).sessions "u" = some ⟨false, true, "sock", false, 70000⟩ ∧
      (initializeUserSession [("u", ⟨false, true, "sock", false, 100⟩)] ["u"]
          "u" "sock" 70000).clients = clientsSet (clientsDelete ["u"] "u") "u") :=
  ⟨c5_single_initialization.1 [("u", ⟨false, true, "sock", false, 100⟩)] ["u"] "u" "sock" 200
      ⟨false, true, "sock", false, 100⟩ (by decide) rfl (by decide),
    c5_single_initialization.2.1 [] [] "u" "sock" 50 60000 rfl (by decide),
    c5_single_initialization.2.2 [("u", ⟨false, true, "sock", false, 100⟩)] ["u"] "u" "sock" 70000
      ⟨false, true, "sock", false, 100⟩ (by decide) rfl rfl (by decide)⟩

namespace WhatsAppService

theorem restartClearedPath_shift (base u : List Char) :
    restartClearedPath base u =
      (base ++ ['/']) ++ 's' :: ('e' :: 's' :: 's' :: 'i' :: 'o' :: 'n' :: '-' :: u) := by
  simp [restartClearedPath, pathJoin, sessionDirMarker, List.append_assoc]

theorem restartClearedPath_slash_shift (base u : List Char) :
    restartClearedPath base u ++ ['/'] =
      (base ++ ['/']) ++ 's' :: ('e' :: 's' :: 's' :: 'i' :: 'o' :: 'n' :: '-' :: (u ++ ['/'])) := by
  simp [restartClearedPath, pathJoin, sessionDirMarker, List.append_assoc]

theorem userSessionPath_shift (base u : List Char) :
    userSessionPath base u = (base ++ ['/']) ++ 'u' :: ('s' :: 'e' :: 'r' :: '-' :: u) := by
  simp [userSessionPath, pathJoin, userDirMarker, List.append_assoc]

theorem credsPath_shift (base u : List Char) :
    credsPath base u =
      (base ++ ['/']) ++ 'u' :: ('s' :: 'e' :: 'r' :: '-' ::
        (u ++ '/' :: ['c', 'r', 'e', 'd', 's', '.', 'j', 's', 'o', 'n'])) := by
  simp [credsPath, userSessionPath, pathJoin, userDirMarker, List.append_assoc]

theorem append_left_cancel_isPrefix (x l1 l2 : List Char)
    (h : x ++ l1 <+: x ++ l2) : l1 <+: l2 := by
  obtain ⟨t, ht⟩ := h
  rw [List.append_assoc] at ht
  exact ⟨t, List.append_cancel_left ht⟩

theorem restartClearedPath_not_before_credsPath (base u : List Char) :
    ¬ (restartClearedPath base u ++ ['/'] <+: credsPath base u) := by
  rw [restartClearedPath_slash_shift, credsPath_shift]
  intro hpre
  have h2 := append_left_cancel_isPrefix (base ++ ['/']) _ _ hpre
  obtain ⟨t, ht⟩ := h2
  injection ht with h3 h4
  exact absurd h3 (by decide)

theorem credsPath_ne_restartClearedPath (base u : List Char) :
    credsPath base u ≠ restartClearedPath base u := by
  rw [restartClearedPath_shift, credsPath_shift]
  intro he
  have h2 := List.append_cancel_left he
  injection h2 with h3 h4
  exact absurd h3 (by decide)

theorem restartClearedPath_ne_userSessionPath (base u : List Char) :
    restartClearedPath base u ≠ userSessionPath base u := by
  rw [restartClearedPath_shift, userSessionPath_shift]
  intro he
  have h2 := List.append_cancel_left he
  injection h2 with h3 h4
  exact absurd h3 (by decide)

end WhatsAppService

open WhatsAppService in
/-- C3: the claim that restart deletes the credential directory
EnsureReady loads from fails on the code: restart removes the path
session-userId under the base directory, while initializeUserSession binds
credentials to user-userId, a different path for every userId, so the
credentials file survives restart and the user is not forced to re-pair. -/
theorem c3_restart_leaves_credentials (base u : List Char) (fs : List (List Char))
    (h : credsPath base u ∈ fs) :
    credsPath base u ∈ restartFsEffect fs base u ∧
    restartClearedPath base u ≠ userSessionPath base u := by
  constructor
  · unfold restartFsEffect fsRemove
    refine List.mem_filter.mpr ⟨h, ?_⟩
    simp only [decide_eq_true_eq]
    intro hor
    rcases hor with heq | hpre
    · exact credsPath_ne_restartClearedPath base u heq
    · exact restartClearedPath_not_before_credsPath base u hpre
  · exact restartClearedPath_ne_userSessionPath base u

open WhatsAppService in
/-- C3 witness: with a one-file filesystem holding the credentials of a
concrete user, restart removes nothing. -/
theorem c3_restart_leaves_credentials_witness :
    credsPath ['b'] ['x'] ∈ restartFsEffect [credsPath ['b'] ['x']] ['b'] ['x'] ∧
    restartClearedPath ['b'] ['x'] ≠ userSessionPath ['b'] ['x'] :=
  c3_restart_leaves_credentials ['b'] ['x'] [credsPath ['b'] ['x']]
    (List.mem_singleton.mpr rfl)

open WhatsAppService in
/-- C6 counterexample: the claim fails on the code in two ways, exhibited
at concrete inputs.  Two workers of the same session may both read
lastCheckTime (0 here) before either writes it back, because
waitForRateLimit suspends at the sleep between its read and its write;
both then start their queries at the same instant 2000, violating the
2-second minimum spacing.  And because the service keeps a single
lastCheckTime for all sessions, a second session entering at 2100 after a
first session's gate passage at 2000 is delayed to 4000 by this gate. -/
theorem c6_counterexample :
    rateGateFor "alice" 0 100 = 2000 ∧
    rateGateFor "alice" 0 200 = 2000 ∧
    rateGateFor "alice" 0 200 - rateGateFor "alice" 0 100 < 2000 ∧
    rateGateFor "bob" 2000 2100 - 2100 = 1900 := by
  refine ⟨by decide, by decide, by decide, by decide⟩

open WhatsAppService in
/-- C6 amended: the pacing gate is scoped to the whole service, not to one
session: its outcome is the same whichever session's userId invokes it,
and every query is gated by the shared lastCheckTime.  For gate passages
that do not overlap, it does enforce the 2-second minimum: the wait ends
at least 2000 ms after the lastCheckTime left by the previous passage.
Overlapping passages (which read the same lastCheckTime) may start closer
together. -/
theorem c6_amended_shared_sequential_gate :
    ∀ (u v : String) (lastCheckTime now : Int),
      rateGateFor u lastCheckTime now = rateGateFor v lastCheckTime now ∧
      2000 ≤ rateGateFor u lastCheckTime now - lastCheckTime := by
  intro u v lastCheckTime now
  refine ⟨rfl, ?_⟩
  unfold rateGateFor waitForRateLimit
  by_cases h : now - lastCheckTime < 2000
  · rw [if_pos h]
    omega
  · rw [if_neg h]
    omega
